import Mathlib

/-!
Shallow embedding of the repotracker incremental synchronization core
(src/src/objects/RepositoryManager.py, src/src/objects/database_orm.py,
src/src/db/models.py, src/main.py).

Modelling conventions:
* Timestamps are integers (seconds relative to the Unix epoch), giving the
  total order that Python `datetime` comparison provides.  Python's
  `datetime.min` (0001-01-01T00:00:00) is the constant `datetimeMin`;
  the Unix epoch (1970-01-01T00:00:00 UTC) is `epochTimestamp`.
* The sqlite database is a record of table contents (lists of rows, in rowid
  order) together with the next fresh rowid per table; `cursor.lastrowid`
  after an INSERT is the fresh rowid.  `cursor.fetchone()` after a SELECT is
  `List.find?` over the table (first row in rowid order matching the WHERE
  clause).
* SQL three-valued equality: a comparison `col = ?` where either side is NULL
  matches no row (`sqlEqOptStr`, `sqlEqOptNat`).
* Each statement autocommits, so database mutations are threaded through the
  state one statement at a time; a Python exception is an early return
  carrying the state already committed (`DB × Option SyncError`).
* git data delivered by GitPython (`repository.iter_commits(branch)`,
  newest first) is a `GitRepo`/`GitBranch`/`GitCommit` value.  The
  `statsFilesLen` field is `len(commit.stats.files)`; it is nonnegative in
  reality, but is kept as `Int` so that store-level constraint violations
  (the CHECK constraint of src/db/models.py) are representable.
-/

/-- Timestamps: seconds relative to the Unix epoch, the integer model of
Python `datetime` under its total comparison order. -/
abbrev Timestamp := Int

/-- Python `datetime.min` = 0001-01-01T00:00:00, which is 719162 days =
62135596800 seconds before the Unix epoch. -/
def datetimeMin : Timestamp := -62135596800

/-- The Unix epoch, 1970-01-01T00:00:00 UTC (the default of
`Repository.last_commit_date` declared in src/db/models.py). -/
def epochTimestamp : Timestamp := 0

/-- A row of the `staff` table (src/db/models.py `Staff`): rowid and `Name`.
`Name` is `Option String` because `_get_or_create_staff` receives
`author_name : str | None` and an INSERT with a `None` parameter stores SQL
NULL. -/
structure StaffRow where
  id : Nat
  name : Option String
deriving Repr, DecidableEq

/-- A row of the `branch` table (src/db/models.py `Branch`): rowid, `Name`,
`RepoID`.  `RepoID` is `Option Nat` because `_get_or_create_branch` inserts
the result of the scalar subquery `SELECT ID FROM repository WHERE Name = ?`,
which is NULL when no repository row matches. -/
structure BranchRow where
  id : Nat
  name : String
  repoId : Option Nat
deriving Repr, DecidableEq

/-- A row of the commits table (src/db/models.py `Commit`): rowid,
`AuthorID`, `BranchID`, `Comment`, `Date`, `FileChanges`. -/
structure CommitRow where
  id : Nat
  authorId : Nat
  branchId : Option Nat
  comment : String
  date : Timestamp
  fileChanges : Int
deriving Repr, DecidableEq

/-- A row of the `repository` table (src/db/models.py `Repository`): rowid,
`Name`, author/creator id, `LastCommitDate` (the watermark). -/
structure RepoRow where
  id : Nat
  name : String
  authorId : Nat
  lastCommitDate : Timestamp
deriving Repr, DecidableEq

/-- The database state: one list of rows per table, in rowid order, plus the
fresh rowid each table would assign next. -/
structure DB where
  staff : List StaffRow
  branch : List BranchRow
  commits : List CommitRow
  repository : List RepoRow
  nextStaffId : Nat
  nextBranchId : Nat
  nextCommitId : Nat
  nextRepoId : Nat
deriving Repr, DecidableEq

/-- `CommitOrm` of src/src/objects/database_orm.py: the in-memory commit
record built by `_get_new_commits` (id omitted: it is `None` until the row is
inserted and is never read by `_insert_commit`). -/
structure CommitOrm where
  author_id : Nat
  branch_id : Option Nat
  comment : String
  date : Timestamp
  file_changes : Int
deriving Repr, DecidableEq

/-- One commit as delivered by GitPython during `repository.iter_commits`:
`commit.author.name` (possibly absent), `commit.message`,
`commit.committed_date`, and `len(commit.stats.files)` (nonnegative in
reality; kept as `Int` so store-level constraint checks are meaningful). -/
structure GitCommit where
  authorName : Option String
  message : String
  committedDate : Timestamp
  statsFilesLen : Int
deriving Repr, DecidableEq

/-- One branch of a working copy: its name and its commits in the order
`repository.iter_commits(branch)` delivers them (newest first). -/
structure GitBranch where
  name : String
  commits : List GitCommit
deriving Repr, DecidableEq

/-- One working copy handle (`git.Repo`): `os.path.basename(working_dir)`
and `repository.branches`. -/
structure GitRepo where
  name : String
  branches : List GitBranch
deriving Repr, DecidableEq

/-- Errors surfaced by the persistence layer.  `constraintViolation` models
the database rejecting a statement that violates a declared constraint, such
as `check_commit_filechanges_nonnegative` (`"FileChanges" >= 0`) of
src/db/models.py. -/
inductive SyncError where
  | constraintViolation
deriving Repr, DecidableEq

/-- SQL equality `col = ?` on nullable text: NULL on either side matches
nothing. -/
def sqlEqOptStr : Option String → Option String → Bool
  | some a, some b => a == b
  | _, _ => false

/-- SQL equality `col = ?` on nullable integers: NULL on either side matches
nothing. -/
def sqlEqOptNat : Option Nat → Option Nat → Bool
  | some a, some b => a == b
  | _, _ => false

/-- `_get_or_create_staff` (RepositoryManager.py lines 173-187):
`SELECT ID FROM staff WHERE Name = ?`; on a hit return the existing id, else
`INSERT INTO staff (Name) VALUES (?)` and return `cursor.lastrowid`. -/
def get_or_create_staff (db : DB) (author_name : Option String) : Nat × DB :=
  match db.staff.find? (fun r => sqlEqOptStr r.name author_name) with
  | some r => (r.id, db)
  | none =>
      (db.nextStaffId,
        { db with
            staff := db.staff ++ [⟨db.nextStaffId, author_name⟩],
            nextStaffId := db.nextStaffId + 1 })

/-- The scalar subquery `SELECT ID FROM repository WHERE Name = ?`: the id of
the first matching repository row, or SQL NULL. -/
def findRepoId (db : DB) (repo_name : String) : Option Nat :=
  (db.repository.find? (fun r => r.name == repo_name)).map (fun r => r.id)

/-- `_get_or_create_branch` (RepositoryManager.py lines 123-143):
`SELECT ID FROM branch WHERE Name = ? AND RepoID = (subquery)`; on a hit
return the existing id, else insert `(Name, RepoID = subquery)` and return
`cursor.lastrowid`. -/
def get_or_create_branch (db : DB) (repo_name branch_name : String) : Nat × DB :=
  match db.branch.find?
      (fun b => b.name == branch_name && sqlEqOptNat b.repoId (findRepoId db repo_name)) with
  | some b => (b.id, db)
  | none =>
      (db.nextBranchId,
        { db with
            branch := db.branch ++
              [⟨db.nextBranchId, branch_name, findRepoId db repo_name⟩],
            nextBranchId := db.nextBranchId + 1 })

/-- `_get_last_commit_date` (RepositoryManager.py lines 112-121):
`SELECT LastCommitDate FROM repository WHERE Name = ?`; the stored value on a
hit, `datetime.min` when `fetchone()` returns no row. -/
def get_last_commit_date (db : DB) (repo_name : String) : Timestamp :=
  match db.repository.find? (fun r => r.name == repo_name) with
  | some r => r.lastCommitDate
  | none => datetimeMin

/-- `_insert_commit` (RepositoryManager.py lines 145-160) executing against a
commits table that carries the CHECK constraint
`check_commit_filechanges_nonnegative` (`"FileChanges" >= 0`, src/db/models.py
lines 202-206): a negative `FileChanges` value makes the INSERT fail with a
constraint violation and no row is stored; otherwise the row is appended and
committed. -/
def insert_commit (db : DB) (branch_id : Option Nat) (commit : CommitOrm) :
    Except SyncError DB :=
  if commit.file_changes < 0 then .error .constraintViolation
  else .ok
    { db with
        commits := db.commits ++
          [⟨db.nextCommitId, commit.author_id, branch_id, commit.comment,
            commit.date, commit.file_changes⟩],
        nextCommitId := db.nextCommitId + 1 }

/-- `_update_last_commit_date` (RepositoryManager.py lines 162-171):
`UPDATE repository SET LastCommitDate = ? WHERE Name = ?` (updates every
matching row; updates nothing when no row matches). -/
def update_last_commit_date (db : DB) (repo_name : String) (t : Timestamp) : DB :=
  { db with
      repository := db.repository.map
        (fun r => if r.name == repo_name then { r with lastCommitDate := t } else r) }

/-- `_get_new_commits` (RepositoryManager.py lines 189-214): walk
`repository.iter_commits(branch)` (newest first); while the commit's date is
strictly newer than `last_commit_date`, resolve the author then the branch
(both with database side effects) and collect a `CommitOrm`; at the first
commit that is not strictly newer, `break` — the rest of the branch is never
inspected. -/
def get_new_commits (db : DB) (repo_name branch_name : String)
    (commits : List GitCommit) (last_commit_date : Timestamp) :
    List CommitOrm × DB :=
  match commits with
  | [] => ([], db)
  | c :: rest =>
      if last_commit_date < c.committedDate then
        let sa := get_or_create_staff db c.authorName
        let sb := get_or_create_branch sa.2 repo_name branch_name
        let tail := get_new_commits sb.2 repo_name branch_name rest last_commit_date
        (⟨sa.1, some sb.1, c.message, c.committedDate, c.statsFilesLen⟩ :: tail.1,
          tail.2)
      else ([], db)

/-- The inner loop of `update_repository` (lines 68-69): insert each collected
commit in list order; a failed INSERT raises, aborting the loop with the
state already committed so far. -/
def insert_all (db : DB) (branch_id : Option Nat) :
    List CommitOrm → DB × Option SyncError
  | [] => (db, none)
  | c :: rest =>
      match insert_commit db branch_id c with
      | .error e => (db, some e)
      | .ok db1 => insert_all db1 branch_id rest

/-- The branch loop of `update_repository` (lines 60-69): for each branch,
resolve the branch id, collect the new commits, insert them; an exception
aborts the whole loop with the state committed so far. -/
def sync_branches (db : DB) (repo_name : String) (last_commit_date : Timestamp) :
    List GitBranch → DB × Option SyncError
  | [] => (db, none)
  | br :: rest =>
      let sb := get_or_create_branch db repo_name br.name
      let nc := get_new_commits sb.2 repo_name br.name br.commits last_commit_date
      match insert_all nc.2 (some sb.1) nc.1 with
      | (db3, some e) => (db3, some e)
      | (db3, none) => sync_branches db3 repo_name last_commit_date rest

/-- `update_repository` (RepositoryManager.py lines 48-72): read the
watermark, process every branch, then set the watermark to `datetime.now()`
(the `now` parameter: wall-clock time at the end of the pass).  An exception
while processing a branch propagates before the watermark update, leaving the
state committed so far. -/
def update_repository (db : DB) (repository : GitRepo) (now : Timestamp) :
    DB × Option SyncError :=
  let last_commit_date := get_last_commit_date db repository.name
  match sync_branches db repository.name last_commit_date repository.branches with
  | (db1, some e) => (db1, some e)
  | (db1, none) => (update_last_commit_date db1 repository.name now, none)

/-- `_create_repo` (RepositoryManager.py lines 74-110): resolve the first
commit's author, then insert a repository row with
`last_commit_date = datetime.min` (the code comment reads: initialize with
the earliest possible date). -/
def create_repo (db : DB) (repo_name : String) (first_commit_author : Option String) :
    RepoRow × DB :=
  let sa := get_or_create_staff db first_commit_author
  let row : RepoRow := ⟨sa.2.nextRepoId, repo_name, sa.1, datetimeMin⟩
  (row,
    { sa.2 with
        repository := sa.2.repository ++ [row],
        nextRepoId := sa.2.nextRepoId + 1 })

/-- A database with no rows at all. -/
def emptyDB : DB := ⟨[], [], [], [], 1, 1, 1, 1⟩

/-- A database tracking repository `demo` with watermark 2 (= T2) and one
staff row `alice`. -/
def demoDB : DB := ⟨[⟨1, some "alice"⟩], [], [], [⟨1, "demo", 1, 2⟩], 2, 1, 1, 2⟩

/-- Commits at timestamps T4 = 4, T3 = 3, T2 = 2, T1 = 1, delivered in
reverse-chronological order. -/
def demoCommits : List GitCommit :=
  [⟨some "alice", "m4", 4, 1⟩, ⟨some "bob", "m3", 3, 2⟩,
   ⟨some "alice", "m2", 2, 1⟩, ⟨some "alice", "m1", 1, 1⟩]

/-- Working copy `demo` with one branch carrying `demoCommits`. -/
def demoRepo : GitRepo := ⟨"demo", [⟨"main", demoCommits⟩]⟩

/-- Working copy `demo` whose branch has no commit newer than watermark 2. -/
def staleRepo : GitRepo :=
  ⟨"demo", [⟨"main", [⟨some "alice", "m2", 2, 1⟩, ⟨some "alice", "m1", 1, 1⟩]⟩]⟩

/-- A database tracking repository `demo` with watermark 0. -/
def freshDB : DB := ⟨[⟨1, some "alice"⟩], [], [], [⟨1, "demo", 1, 0⟩], 2, 1, 1, 2⟩

/-- Working copy `demo` whose branch has a valid newest commit (timestamp 3)
followed by a commit whose file-change count is negative (timestamp 2), so
the second insert of the pass violates the CHECK constraint. -/
def failMidRepo : GitRepo :=
  ⟨"demo", [⟨"main", [⟨some "alice", "ok", 3, 1⟩, ⟨some "alice", "bad", 2, -1⟩]⟩]⟩

theorem sqlEqOptStr_none_right (x : Option String) : sqlEqOptStr x none = false := by
  cases x <;> rfl

theorem sqlEqOptStr_some_refl (n : String) :
    sqlEqOptStr (some n) (some n) = true := by
  simp [sqlEqOptStr]

theorem find?_append_of_none {α : Type} (p : α → Bool) (l1 l2 : List α)
    (h : l1.find? p = none) : (l1 ++ l2).find? p = l2.find? p := by
  induction l1 with
  | nil => rfl
  | cons a l ih =>
      rw [List.find?_cons] at h
      cases hp : p a with
      | true => simp [hp] at h
      | false =>
          rw [List.cons_append, List.find?_cons, hp]
          exact ih (by simpa [hp] using h)

/-! ### State-preservation lemmas for the store operations -/

theorem get_or_create_staff_repository (db : DB) (n : Option String) :
    (get_or_create_staff db n).2.repository = db.repository := by
  unfold get_or_create_staff
  cases db.staff.find? (fun r => sqlEqOptStr r.name n) <;> rfl

theorem get_or_create_staff_commits (db : DB) (n : Option String) :
    (get_or_create_staff db n).2.commits = db.commits := by
  unfold get_or_create_staff
  cases db.staff.find? (fun r => sqlEqOptStr r.name n) <;> rfl

theorem get_or_create_branch_repository (db : DB) (rn bn : String) :
    (get_or_create_branch db rn bn).2.repository = db.repository := by
  unfold get_or_create_branch
  cases db.branch.find?
      (fun b => b.name == bn && sqlEqOptNat b.repoId (findRepoId db rn)) <;> rfl

theorem get_or_create_branch_commits (db : DB) (rn bn : String) :
    (get_or_create_branch db rn bn).2.commits = db.commits := by
  unfold get_or_create_branch
  cases db.branch.find?
      (fun b => b.name == bn && sqlEqOptNat b.repoId (findRepoId db rn)) <;> rfl

theorem get_or_create_branch_staff (db : DB) (rn bn : String) :
    (get_or_create_branch db rn bn).2.staff = db.staff := by
  unfold get_or_create_branch
  cases db.branch.find?
      (fun b => b.name == bn && sqlEqOptNat b.repoId (findRepoId db rn)) <;> rfl

theorem get_new_commits_repository (rn bn : String) (l : List GitCommit)
    (W : Timestamp) : ∀ db : DB,
    (get_new_commits db rn bn l W).2.repository = db.repository := by
  induction l with
  | nil => intro db; rfl
  | cons c rest ih =>
      intro db
      unfold get_new_commits
      by_cases h : W < c.committedDate
      · simp only [if_pos h]
        rw [ih, get_or_create_branch_repository, get_or_create_staff_repository]
      · simp only [if_neg h]

theorem get_new_commits_commits (rn bn : String) (l : List GitCommit)
    (W : Timestamp) : ∀ db : DB,
    (get_new_commits db rn bn l W).2.commits = db.commits := by
  induction l with
  | nil => intro db; rfl
  | cons c rest ih =>
      intro db
      unfold get_new_commits
      by_cases h : W < c.committedDate
      · simp only [if_pos h]
        rw [ih, get_or_create_branch_commits, get_or_create_staff_commits]
      · simp only [if_neg h]

theorem insert_commit_ok_repository (db : DB) (bid : Option Nat) (c : CommitOrm)
    (db1 : DB) (h : insert_commit db bid c = .ok db1) :
    db1.repository = db.repository := by
  unfold insert_commit at h
  by_cases hc : c.file_changes < 0
  · simp [hc] at h
  · simp only [if_neg hc] at h
    cases h
    rfl

theorem insert_commit_ok_commits (db : DB) (bid : Option Nat) (c : CommitOrm)
    (db1 : DB) (h : insert_commit db bid c = .ok db1) :
    db1.commits = db.commits ++
      [⟨db.nextCommitId, c.author_id, bid, c.comment, c.date, c.file_changes⟩] := by
  unfold insert_commit at h
  by_cases hc : c.file_changes < 0
  · simp [hc] at h
  · simp only [if_neg hc] at h
    cases h
    rfl

theorem insert_all_repository (bid : Option Nat) (l : List CommitOrm) :
    ∀ db : DB, (insert_all db bid l).1.repository = db.repository := by
  induction l with
  | nil => intro db; rfl
  | cons c rest ih =>
      intro db
      unfold insert_all
      cases h : insert_commit db bid c with
      | error e => rfl
      | ok db1 =>
          simp only []
          rw [ih db1, insert_commit_ok_repository db bid c db1 h]

theorem insert_all_commits_extend (bid : Option Nat) (l : List CommitOrm) :
    ∀ db : DB, ∃ tail, (insert_all db bid l).1.commits = db.commits ++ tail := by
  induction l with
  | nil => intro db; exact ⟨[], (List.append_nil _).symm⟩
  | cons c rest ih =>
      intro db
      unfold insert_all
      cases h : insert_commit db bid c with
      | error e => exact ⟨[], (List.append_nil _).symm⟩
      | ok db1 =>
          simp only []
          obtain ⟨t, ht⟩ := ih db1
          refine ⟨⟨db.nextCommitId, c.author_id, bid, c.comment, c.date,
            c.file_changes⟩ :: t, ?_⟩
          rw [ht, insert_commit_ok_commits db bid c db1 h]
          simp

theorem sync_branches_repository (rn : String) (W : Timestamp)
    (bl : List GitBranch) : ∀ db : DB,
    (sync_branches db rn W bl).1.repository = db.repository := by
  induction bl with
  | nil => intro db; rfl
  | cons br rest ih =>
      intro db
      unfold sync_branches
      simp only []
      cases h : insert_all (get_new_commits (get_or_create_branch db rn br.name).2
          rn br.name br.commits W).2
          (some (get_or_create_branch db rn br.name).1)
          (get_new_commits (get_or_create_branch db rn br.name).2
            rn br.name br.commits W).1 with
      | mk db3 o =>
          have h3 : db3.repository = db.repository := by
            have := insert_all_repository
              (some (get_or_create_branch db rn br.name).1)
              (get_new_commits (get_or_create_branch db rn br.name).2
                rn br.name br.commits W).1
              (get_new_commits (get_or_create_branch db rn br.name).2
                rn br.name br.commits W).2
            rw [h] at this
            simpa [get_new_commits_repository, get_or_create_branch_repository]
              using this
          cases o with
          | some e => simpa using h3
          | none => rw [ih db3, h3]

theorem sync_branches_commits_extend (rn : String) (W : Timestamp)
    (bl : List GitBranch) : ∀ db : DB,
    ∃ tail, (sync_branches db rn W bl).1.commits = db.commits ++ tail := by
  induction bl with
  | nil => intro db; exact ⟨[], (List.append_nil _).symm⟩
  | cons br rest ih =>
      intro db
      unfold sync_branches
      simp only []
      cases h : insert_all (get_new_commits (get_or_create_branch db rn br.name).2
          rn br.name br.commits W).2
          (some (get_or_create_branch db rn br.name).1)
          (get_new_commits (get_or_create_branch db rn br.name).2
            rn br.name br.commits W).1 with
      | mk db3 o =>
          have h3 : ∃ t, db3.commits = db.commits ++ t := by
            obtain ⟨t, ht⟩ := insert_all_commits_extend
              (some (get_or_create_branch db rn br.name).1)
              (get_new_commits (get_or_create_branch db rn br.name).2
                rn br.name br.commits W).1
              (get_new_commits (get_or_create_branch db rn br.name).2
                rn br.name br.commits W).2
            rw [h] at ht
            rw [get_new_commits_commits, get_or_create_branch_commits] at ht
            exact ⟨t, ht⟩
          cases o with
          | some e => simpa using h3
          | none =>
              obtain ⟨t1, ht1⟩ := h3
              obtain ⟨t2, ht2⟩ := ih db3
              exact ⟨t1 ++ t2, by rw [ht2, ht1, List.append_assoc]⟩

theorem find?_map_of_pred {α β : Type} (f : α → β) (p : α → Bool) (q : β → Bool)
    (hf : ∀ a, q (f a) = p a) (l : List α) :
    (l.map f).find? q = (l.find? p).map f := by
  induction l with
  | nil => rfl
  | cons a l ih =>
      simp only [List.map_cons, List.find?_cons, hf a]
      cases p a
      · simpa using ih
      · rfl

theorem get_last_commit_date_after_update (db : DB) (rn : String) (t : Timestamp) :
    get_last_commit_date (update_last_commit_date db rn t) rn
      = if (db.repository.find? (fun r => r.name == rn)).isSome then t
        else datetimeMin := by
  unfold get_last_commit_date update_last_commit_date
  simp only []
  rw [find?_map_of_pred
        (fun r => if r.name == rn then { r with lastCommitDate := t } else r)
        (fun r => r.name == rn) (fun r => r.name == rn)
        (fun a => by by_cases ha : a.name == rn <;> simp [ha])
        db.repository]
  cases hfind : db.repository.find? (fun r => r.name == rn) with
  | none => rfl
  | some r =>
      have hp := List.find?_some hfind
      have hname : r.name = rn := by simpa using hp
      simp [hname]

/-! ### Claim theorems -/

/-- C10: `_get_or_create_staff` called with author name `None` never matches
an existing row (SQL `Name = NULL` is never true), so each call inserts a new
staff row and returns a fresh identifier: two successive calls with `None`
return distinct identifiers and add two rows. -/
theorem c10_null_author_not_deduplicated (db : DB) :
    (get_or_create_staff db none).1
        ≠ (get_or_create_staff (get_or_create_staff db none).2 none).1
  ∧ (get_or_create_staff (get_or_create_staff db none).2 none).2.staff.length
      = db.staff.length + 2 := by
  have hfind : ∀ l : List StaffRow,
      l.find? (fun r => sqlEqOptStr r.name none) = none := by
    intro l
    apply List.find?_eq_none.mpr
    intro x _
    simp [sqlEqOptStr_none_right]
  constructor
  · simp [get_or_create_staff, hfind]
  · simp [get_or_create_staff, hfind]

/-- C3: for every author name and every (repository, branch name) pair with
the repository present in the store, calling get-or-create twice with the
same argument — within one pass or across passes — returns the same
identifier and leaves the database unchanged on the second call (no duplicate
row for the natural key). -/
theorem c3_get_or_create_idempotent (db : DB) (n rn bn : String)
    (hrepo : (db.repository.find? (fun r => r.name == rn)).isSome) :
    get_or_create_staff (get_or_create_staff db (some n)).2 (some n)
      = get_or_create_staff db (some n)
  ∧ get_or_create_branch (get_or_create_branch db rn bn).2 rn bn
      = get_or_create_branch db rn bn := by
  constructor
  · cases hf : db.staff.find? (fun r => sqlEqOptStr r.name (some n)) with
    | some r => simp [get_or_create_staff, hf]
    | none =>
        simp only [get_or_create_staff, hf]
        rw [find?_append_of_none _ _ _ hf]
        simp [sqlEqOptStr]
  · obtain ⟨rr, hrr⟩ := Option.isSome_iff_exists.mp hrepo
    have hrid : findRepoId db rn = some rr.id := by
      unfold findRepoId
      rw [hrr]
      rfl
    cases hf : db.branch.find?
        (fun b => b.name == bn && sqlEqOptNat b.repoId (findRepoId db rn)) with
    | some b => simp [get_or_create_branch, hf]
    | none =>
        simp only [get_or_create_branch, hf]
        have hrep2 : findRepoId
            { db with
                branch := db.branch ++ [⟨db.nextBranchId, bn, findRepoId db rn⟩],
                nextBranchId := db.nextBranchId + 1 } rn = findRepoId db rn := rfl
        rw [hrep2, find?_append_of_none _ _ _ hf]
        simp [sqlEqOptNat, hrid]

/-- Witness for C3 at a concrete database tracking repository `demo`. -/
theorem c3_get_or_create_idempotent_witness :
    ((freshDB.repository.find? (fun r => r.name == "demo")).isSome)
  ∧ (get_or_create_staff (get_or_create_staff freshDB (some "bob")).2 (some "bob")
        = get_or_create_staff freshDB (some "bob")
    ∧ get_or_create_branch (get_or_create_branch freshDB "demo" "main").2 "demo" "main"
        = get_or_create_branch freshDB "demo" "main") :=
  ⟨by decide, c3_get_or_create_idempotent freshDB "bob" "demo" "main" (by decide)⟩

/-- C5: the watermark is monotonically non-decreasing across sync passes:
whenever the wall clock `now` at the end of a pass is not behind the current
watermark, the watermark recorded after the pass (whether the pass completes
or aborts) is at least the watermark before it.  Chaining this over passes
N and N+1 gives: watermark after pass N+1 >= watermark after pass N. -/
theorem c5_watermark_monotone (db : DB) (repo : GitRepo) (now : Timestamp)
    (hnow : get_last_commit_date db repo.name ≤ now) :
    get_last_commit_date db repo.name
      ≤ get_last_commit_date (update_repository db repo now).1 repo.name := by
  unfold update_repository
  simp only []
  cases hs : sync_branches db repo.name (get_last_commit_date db repo.name)
      repo.branches with
  | mk db1 o =>
      have hrep : db1.repository = db.repository := by
        have := sync_branches_repository repo.name
          (get_last_commit_date db repo.name) repo.branches db
        rw [hs] at this
        exact this
      cases o with
      | some e =>
          simp only []
          have h1 : get_last_commit_date db1 repo.name
              = get_last_commit_date db repo.name := by
            unfold get_last_commit_date
            rw [hrep]
          rw [h1]
      | none =>
          simp only []
          rw [get_last_commit_date_after_update, hrep]
          cases hfind : db.repository.find? (fun r => r.name == repo.name) with
          | some r => simpa using hnow
          | none =>
              have h0 : get_last_commit_date db repo.name = datetimeMin := by
                unfold get_last_commit_date
                rw [hfind]
              simp [h0]

/-- Witness for C5: concrete pass over `demo` (watermark 2) with `now` = 10. -/
theorem c5_watermark_monotone_witness :
    (get_last_commit_date demoDB "demo" ≤ 10)
  ∧ get_last_commit_date demoDB "demo"
      ≤ get_last_commit_date (update_repository demoDB demoRepo 10).1 "demo" :=
  ⟨by decide, c5_watermark_monotone demoDB demoRepo 10 (by decide)⟩

theorem sync_branches_no_new (rn : String) (W : Timestamp)
    (bl : List GitBranch) : ∀ db : DB,
    (∀ br ∈ bl, ∀ c ∈ br.commits, c.committedDate ≤ W) →
    (sync_branches db rn W bl).1.commits = db.commits := by
  induction bl with
  | nil => intro db _; rfl
  | cons br rest ih =>
      intro db h
      unfold sync_branches
      simp only []
      have hnc : get_new_commits (get_or_create_branch db rn br.name).2
          rn br.name br.commits W
          = ([], (get_or_create_branch db rn br.name).2) := by
        cases hcs : br.commits with
        | nil => rfl
        | cons c cs =>
            unfold get_new_commits
            have hc : ¬ (W < c.committedDate) := by
              have hcW := h br (List.mem_cons_self br rest) c
                (by rw [hcs]; exact List.mem_cons_self c cs)
              exact not_lt.mpr hcW
            simp [hc]
      rw [hnc]
      simp only [insert_all]
      rw [ih (get_or_create_branch db rn br.name).2
        (fun b hb c hc => h b (List.mem_cons_of_mem br hb) c hc)]
      exact get_or_create_branch_commits db rn br.name

/-- C4: a completed sync pass sets the repository's watermark to the
wall-clock time `now` at the end of the pass (not the maximum observed commit
timestamp), and it does so even when no branch has any commit newer than the
watermark, in which case zero commit rows are inserted. -/
theorem c4_watermark_set_to_now (db : DB) (repo : GitRepo) (now : Timestamp)
    (rr : RepoRow)
    (hrepo : db.repository.find? (fun r => r.name == repo.name) = some rr)
    (hok : (update_repository db repo now).2 = none) :
    get_last_commit_date (update_repository db repo now).1 repo.name = now
  ∧ ((∀ br ∈ repo.branches, ∀ c ∈ br.commits, c.committedDate ≤ rr.lastCommitDate) →
        (update_repository db repo now).1.commits = db.commits) := by
  have hW : get_last_commit_date db repo.name = rr.lastCommitDate := by
    unfold get_last_commit_date
    rw [hrepo]
  unfold update_repository at hok ⊢
  simp only [] at hok ⊢
  cases hs : sync_branches db repo.name (get_last_commit_date db repo.name)
      repo.branches with
  | mk db1 o =>
      rw [hs] at hok
      have hrep : db1.repository = db.repository := by
        have := sync_branches_repository repo.name
          (get_last_commit_date db repo.name) repo.branches db
        rw [hs] at this
        exact this
      cases o with
      | some e => simp at hok
      | none =>
          constructor
          · simp only []
            rw [get_last_commit_date_after_update, hrep, hrepo]
            rfl
          · intro hstale
            simp only []
            have h1 := sync_branches_no_new repo.name
              (get_last_commit_date db repo.name) repo.branches db
              (by rw [hW]; exact hstale)
            rw [hs] at h1
            simpa using h1

/-- Witness for C4: a pass over `demo` whose branch has no commit newer than
watermark 2 still sets the watermark to 10 and inserts no commit row. -/
theorem c4_watermark_set_to_now_witness :
    (demoDB.repository.find? (fun r => r.name == "demo") = some ⟨1, "demo", 1, 2⟩)
  ∧ ((update_repository demoDB staleRepo 10).2 = none)
  ∧ (get_last_commit_date (update_repository demoDB staleRepo 10).1 "demo" = 10
    ∧ ((∀ br ∈ staleRepo.branches, ∀ c ∈ br.commits,
          c.committedDate ≤ (⟨1, "demo", 1, 2⟩ : RepoRow).lastCommitDate) →
        (update_repository demoDB staleRepo 10).1.commits = demoDB.commits)) :=
  ⟨by decide, by decide,
    c4_watermark_set_to_now demoDB staleRepo 10 ⟨1, "demo", 1, 2⟩
      (by decide) (by decide)⟩

/-- Counterexample to C9 as stated: `_create_repo` initializes
`last_commit_date` to `datetime.min` (0001-01-01, the minimum representable
timestamp), not to the Unix epoch 1970-01-01 UTC, and reading the watermark
of the freshly registered repository returns `datetime.min`, which differs
from the epoch. -/
theorem c9_watermark_default_counterexample :
    (create_repo emptyDB "demo" (some "alice")).1.lastCommitDate = datetimeMin
  ∧ get_last_commit_date (create_repo emptyDB "demo" (some "alice")).2 "demo"
      = datetimeMin
  ∧ datetimeMin ≠ epochTimestamp
  ∧ ¬ ((create_repo emptyDB "demo" (some "alice")).1.lastCommitDate
        = epochTimestamp) := by
  refine ⟨?_, ?_, ?_, ?_⟩ <;> decide

/-- C9 amended: a newly registered repository's watermark is initialized to
the minimum representable timestamp (`datetime.min`, 0001-01-01), and
`_get_last_commit_date` returns `datetime.min` both for the freshly
registered repository and for a name with no repository row at all. -/
theorem c9_watermark_default_amended (db : DB) (name : String)
    (author : Option String)
    (hfresh : db.repository.find? (fun r => r.name == name) = none) :
    (create_repo db name author).1.lastCommitDate = datetimeMin
  ∧ get_last_commit_date (create_repo db name author).2 name = datetimeMin
  ∧ get_last_commit_date db name = datetimeMin := by
  refine ⟨rfl, ?_, ?_⟩
  · unfold create_repo get_last_commit_date
    simp only []
    rw [get_or_create_staff_repository]
    rw [find?_append_of_none _ _ _ hfresh]
    simp [List.find?]
  · unfold get_last_commit_date
    rw [hfresh]

/-- Witness for C9 amended, registering `demo` into the empty database. -/
theorem c9_watermark_default_amended_witness :
    (emptyDB.repository.find? (fun r => r.name == "demo") = none)
  ∧ ((create_repo emptyDB "demo" (some "alice")).1.lastCommitDate = datetimeMin
    ∧ get_last_commit_date (create_repo emptyDB "demo" (some "alice")).2 "demo"
        = datetimeMin
    ∧ get_last_commit_date emptyDB "demo" = datetimeMin) :=
  ⟨by decide, c9_watermark_default_amended emptyDB "demo" (some "alice") (by decide)⟩
